import Mathlib

/-!
Verification of the jsxapi request-correlation core against its source.

The development shallowly embeds `src/xapi/index.js` (the `XAPI` class:
`execute`, `handleResponse`, `nextRequestId`, `command`, constructor wiring)
and the section components / mixins (`Component.normalizePath`,
`GettableImpl.get`, `SettableImpl.set`).  JavaScript values are modelled by
an inductive `JSValue`; the pending-request table is an association list from
request-id strings to promise tokens; promises are identified by tokens drawn
from a fresh counter, and settling a promise is recorded in the result of
`handleResponse` rather than by mutating a callback store.
-/

namespace JSXAPI

/-- A JavaScript value, as far as the envelope layer needs:
`undef` models JavaScript `undefined`. -/
inductive JSValue where
  | undef
  | str (s : String)
  | num (n : Int)
  | arr (elems : List JSValue)
  | obj (fields : List (String × JSValue))

/-- An outbound JSON-RPC request envelope `{ id, method, params? }`.
`params = none` models the field being absent (params was `undefined`). -/
structure Request where
  id : String
  method : String
  params : Option JSValue

/-- Modelled from the spec: the `rpc` module (`rpc.createRequest`) is not in
the provided sources; per the wire-envelope contract the outbound request is
`{ id, method, params? }`, so `createRequest` packs its three arguments. -/
def createRequest (id : String) (method : String) (params : Option JSValue) :
    Request :=
  { id := id, method := method, params := params }

/-- An inbound envelope as seen by `handleResponse`.  Every field is optional:
`none` models the property being absent from the JavaScript object (so the
`hasOwnProperty('result')` check in the source is `result.isSome`). -/
structure Response where
  id : Option String
  method : Option String
  result : Option JSValue
  error : Option JSValue
  params : Option JSValue

/-- Association-list lookup for the pending-request table `this.requests`. -/
def lookupReq : List (String × Nat) → String → Option Nat
  | [], _ => none
  | (k, v) :: rest, i => if k = i then some v else lookupReq rest i

/-- JavaScript property assignment `o[k] = v`: overwrite in place when the key
exists (keys are unique in an object, so overwriting the first occurrence is
the object semantics), append otherwise. -/
def setReq : List (String × Nat) → String → Nat → List (String × Nat)
  | [], k, v => [(k, v)]
  | (a, b) :: t, k, v =>
      if a = k then (k, v) :: t else (a, b) :: setReq t k v

/-- JavaScript `delete o[k]`. -/
def eraseKey (l : List (String × Nat)) (k : String) : List (String × Nat) :=
  l.filter (fun p => p.1 ≠ k)

/-- The mutable state of one `XAPI` instance: the `requestId` counter, the
pending-request table, and a counter supplying identities (tokens) for the
promises created by `execute`. -/
structure XAPIState where
  requestId : Nat
  requests : List (String × Nat)
  nextTok : Nat

/-- A freshly constructed session: `this.requestId = 1`, `this.requests = {}`
(source constructor, lines 80 and 83). -/
def initXAPI : XAPIState := { requestId := 1, requests := [], nextTok := 0 }

/-- `XAPI.nextRequestId` (source lines 231-235): return the string form of the
counter and increment it. -/
def nextRequestId (st : XAPIState) : String × XAPIState :=
  (toString st.requestId, { st with requestId := st.requestId + 1 })

/-- What `execute` observably does with the promise it returns: either the
promise (identified by its token) is left pending with the request handed to
the transport, or the transport threw synchronously inside the `Promise`
executor and the promise is rejected with the thrown value. -/
inductive ExecOutcome where
  | pending (tok : Nat) (req : Request)
  | rejectedSync (tok : Nat) (thrown : JSValue)

/-- The transport collaborator's `execute`: accepts one outbound envelope and
either returns (`ok`) or throws a value synchronously (`error`). -/
def Backend : Type := Request → Except JSValue Unit

/-- A transport whose `execute` never throws. -/
def okBackend : Backend := fun _ => Except.ok ()

/-- `XAPI.execute` (source lines 249-256).  Inside the `Promise` executor:
allocate the next id, build the request, hand it to the transport, and only
then store the pending entry.  A synchronous transport throw escapes the
executor, rejecting the returned promise before the entry is stored. -/
def execute (st : XAPIState) (b : Backend) (method : String)
    (params : Option JSValue) : XAPIState × ExecOutcome :=
  let idst := nextRequestId st
  let tok := st.nextTok
  let st2 := { idst.2 with nextTok := st.nextTok + 1 }
  let req := createRequest idst.1 method params
  match b req with
  | Except.error e => (st2, ExecOutcome.rejectedSync tok e)
  | Except.ok _ =>
      ({ st2 with requests := setReq st2.requests idst.1 tok },
        ExecOutcome.pending tok req)

/-- What one call to `handleResponse` observably does: dispatch feedback,
resolve or reject exactly one pending promise, or throw (the source
destructures `this.requests[id]` without an existence check, so an unmatched
id raises a `TypeError`). -/
inductive HandleResult where
  | feedback (params : Option JSValue)
  | resolved (tok : Nat) (value : JSValue)
  | rejected (tok : Nat) (value : JSValue)
  | thrown

/-- Whether a `HandleResult` is the feedback branch. -/
def HandleResult.isFeedback : HandleResult → Bool
  | HandleResult.feedback _ => true
  | _ => false

/-- `XAPI.handleResponse` (source lines 211-228).  Envelopes whose `method`
is `"xFeedback/Event"` go to `feedback.dispatch(response.params)`; every other
envelope is looked up in `this.requests` by its `id`.  A missing entry makes
`const { resolve } = this.requests[id]` throw.  If the envelope owns a
`result` property the promise resolves with it; otherwise it rejects with
`response.error` (which is `undefined` when the property is absent).  In both
settled cases the entry is deleted. -/
def handleResponse (st : XAPIState) (r : Response) : XAPIState × HandleResult :=
  if r.method = some "xFeedback/Event" then
    (st, HandleResult.feedback r.params)
  else
    match r.id with
    | none => (st, HandleResult.thrown)
    | some i =>
        match lookupReq st.requests i with
        | none => (st, HandleResult.thrown)
        | some tok =>
            match r.result with
            | some v =>
                ({ st with requests := eraseKey st.requests i },
                  HandleResult.resolved tok v)
            | none =>
                ({ st with requests := eraseKey st.requests i },
                  HandleResult.rejected tok (r.error.getD JSValue.undef))

/-- A path input: either a single string or an already-ordered sequence of
segments. -/
inductive Path where
  | str (s : String)
  | segs (l : List String)

/-- Split a character list at every separator character, like
`String.prototype.split` with a one-character separator. -/
def splitChars (sep : Char → Bool) : List Char → List (List Char)
  | [] => [[]]
  | c :: t =>
      match splitChars sep t with
      | [] => [[]]
      | g :: gs => if sep c then [] :: g :: gs else (c :: g) :: gs

/-- Modelled from the spec: the `normalizePath` module is not in the provided
sources.  Per §4.1, a sequence input is returned unchanged (the defensive copy
is invisible to a value semantics); a string input is split on `"/"` when a
slash is present, else on whitespace. -/
def normalizePath : Path → List String
  | Path.segs l => l
  | Path.str s =>
      if s.data.contains '/' then
        (splitChars (fun c => c = '/') s.data).map List.asString
      else
        (splitChars (fun c => c.isWhitespace) s.data).map List.asString

/-- `Component.normalizePath` (components source, lines 37-43): an empty
(falsy) component path passes the normalized path through; a non-empty one is
prepended by structural concatenation. -/
def Component.normalizePath (pfx : String) (p : Path) : List String :=
  let normalized := JSXAPI.normalizePath p
  if pfx = "" then normalized else pfx :: normalized

/-- JavaScript property assignment on a `JSValue.obj` field list. -/
def setFieldJS (o : List (String × JSValue)) (k : String) (v : JSValue) :
    List (String × JSValue) :=
  if o.any (fun p => p.1 = k) then
    o.map (fun p => if p.1 = k then (k, v) else p)
  else
    o ++ [(k, v)]

/-- `Object.assign(target, src)`: copy the fields of `src` onto `target`
in order. -/
def objAssign (target src : List (String × JSValue)) :
    List (String × JSValue) :=
  src.foldl (fun acc p => setFieldJS acc p.1 p.2) target

/-- The `executeParams` computation of `XAPI.command` (source line 206):
`body === undefined ? params : Object.assign({ body }, params)`.  `params` is
an optional object (field list); `Object.assign` with an `undefined` source
leaves the target unchanged. -/
def mkCommandParams (params : Option (List (String × JSValue)))
    (body : Option String) : Option JSValue :=
  match body with
  | none => params.map JSValue.obj
  | some b =>
      some (JSValue.obj (objAssign [("body", JSValue.str b)] (params.getD [])))

/-- `Array.prototype.join('/')`. -/
def joinSlash : List String → String
  | [] => ""
  | [s] => s
  | s :: t => s ++ "/" ++ joinSlash t

/-- `XAPI.command` (source lines 203-208): slash-join the normalized path into
an `xCommand/...` method name, merge the optional body, and call `execute`. -/
def command (st : XAPIState) (b : Backend) (path : Path)
    (params : Option (List (String × JSValue))) (body : Option String) :
    XAPIState × ExecOutcome :=
  let apiPath := joinSlash (normalizePath path)
  let method := "xCommand/" ++ apiPath
  execute st b method (mkCommandParams params body)

/-- A normalized path as the JavaScript array value carried in params. -/
def jsPath (segs : List String) : JSValue :=
  JSValue.arr (segs.map JSValue.str)

/-- `GettableImpl.get` (mixins source, lines 277-281):
`xapi.execute('xGet', { Path: normalizePath(path) })`, where the injected
`normalizePath` is the owning component's (prefix-applying) one. -/
def GettableImpl.get (st : XAPIState) (b : Backend) (pfx : String)
    (p : Path) : XAPIState × ExecOutcome :=
  execute st b "xGet"
    (some (JSValue.obj [("Path", jsPath (Component.normalizePath pfx p))]))

/-- `SettableImpl.set` (mixins source, lines 304-309):
`xapi.execute('xSet', { Path: normalizePath(path), Value: value })`. -/
def SettableImpl.set (st : XAPIState) (b : Backend) (pfx : String)
    (p : Path) (v : JSValue) : XAPIState × ExecOutcome :=
  execute st b "xSet"
    (some (JSValue.obj
      [("Path", jsPath (Component.normalizePath pfx p)), ("Value", v)]))

/-- A lifecycle or data event emitted by the transport. -/
inductive BackendEvent where
  | ready
  | close
  | error (e : JSValue)
  | data (r : Response)

/-- An event emitted by the `XAPI` facade itself. -/
inductive FacadeEmission where
  | ready
  | close
  | error (e : JSValue)

/-- The constructor's transport wiring (source lines 144-148): `close`,
`error` and `ready` are re-emitted once each on the facade (the error payload
passed through unchanged); `data` goes to `handleResponse`, emitting
nothing itself. -/
def lifecycleEmissions : BackendEvent → List FacadeEmission
  | BackendEvent.close => [FacadeEmission.close]
  | BackendEvent.error e => [FacadeEmission.error e]
  | BackendEvent.ready => [FacadeEmission.ready]
  | BackendEvent.data _ => []

/-- Run a sequence of `execute` calls (method/params pairs), with no
responses delivered in between, collecting the outcomes. -/
def execSeq (b : Backend) :
    XAPIState → List (String × Option JSValue) → XAPIState × List ExecOutcome
  | st, [] => (st, [])
  | st, c :: rest =>
      let r := execute st b c.1 c.2
      let rs := execSeq b r.1 rest
      (rs.1, r.2 :: rs.2)

/-- The request id carried by an outcome (a pending request's envelope id). -/
def outId : ExecOutcome → String
  | ExecOutcome.pending _ req => req.id
  | ExecOutcome.rejectedSync _ _ => ""

/-- The ids issued by a sequence of `execute` calls. -/
def issuedIds (st : XAPIState) (calls : List (String × Option JSValue)) :
    List String :=
  (execSeq okBackend st calls).2.map outId

/-- The keys of the pending-request table. -/
def reqKeys (l : List (String × Nat)) : List String :=
  l.map Prod.fst

/-! ### Decimal representation of request ids

`nextRequestId` returns `toString this.requestId`; to reason about id
uniqueness we characterize `Nat.repr` by a structural recursion and prove the
decimal round trip, giving injectivity of `toString` on `Nat`. -/

/-- Big-endian decimal digit characters of a natural number: the
specification of `Nat.repr`. -/
def decRepr (n : Nat) : List Char :=
  if _ : n < 10 then [Nat.digitChar n]
  else decRepr (n / 10) ++ [Nat.digitChar (n % 10)]
decreasing_by exact Nat.div_lt_self (by omega) (by omega)

theorem toDigitsCore_eq_decRepr (n : Nat) :
    ∀ f ds, n < f → Nat.toDigitsCore 10 f n ds = decRepr n ++ ds := by
  induction n using Nat.strong_induction_on with
  | _ n ih =>
    intro f ds hf
    match f, hf with
    | f + 1, hf =>
      by_cases h : n < 10
      · have hdiv : n / 10 = 0 := Nat.div_eq_of_lt h
        have hmod : n % 10 = n := Nat.mod_eq_of_lt h
        simp only [Nat.toDigitsCore, hdiv, hmod, if_pos]
        rw [decRepr]
        simp [h]
      · have hdiv : n / 10 ≠ 0 := by
          intro h0
          exact h (by omega)
        have hlt : n / 10 < n := Nat.div_lt_self (by omega) (by omega)
        have hfuel : n / 10 < f := by omega
        simp only [Nat.toDigitsCore, hdiv, if_neg, ite_false]
        rw [ih (n / 10) hlt f _ hfuel]
        conv_rhs => rw [decRepr]
        simp [h, List.append_assoc]

theorem repr_eq_decRepr (n : Nat) : Nat.repr n = (decRepr n).asString := by
  rw [Nat.repr, Nat.toDigits,
    toDigitsCore_eq_decRepr n (n + 1) [] (Nat.lt_succ_self n), List.append_nil]

/-- Numeric value of a decimal digit character. -/
def decVal (c : Char) : Nat := c.toNat - 48

theorem decVal_digitChar (d : Nat) (h : d < 10) :
    decVal (Nat.digitChar d) = d := by
  interval_cases d <;> rfl

/-- Numeric value of a big-endian decimal digit string. -/
def decOf (l : List Char) : Nat :=
  l.foldl (fun a c => 10 * a + decVal c) 0

theorem decOf_decRepr (n : Nat) : decOf (decRepr n) = n := by
  induction n using Nat.strong_induction_on with
  | _ n ih =>
    by_cases h : n < 10
    · rw [decRepr]
      simp only [h, dite_true]
      show 10 * 0 + decVal (Nat.digitChar n) = n
      rw [decVal_digitChar n h]
      omega
    · rw [decRepr]
      simp only [h, dite_false]
      unfold decOf
      rw [List.foldl_append]
      have hrec := ih (n / 10) (Nat.div_lt_self (by omega) (by omega))
      unfold decOf at hrec
      rw [hrec]
      show 10 * (n / 10) + decVal (Nat.digitChar (n % 10)) = n
      rw [decVal_digitChar (n % 10) (Nat.mod_lt _ (by omega))]
      omega

/-- The number named by a request-id string. -/
def idNum (s : String) : Nat := decOf s.toList

theorem idNum_toString (n : Nat) : idNum (toString n) = n := by
  show decOf (String.toList (Nat.repr n)) = n
  rw [repr_eq_decRepr]
  show decOf (decRepr n) = n
  exact decOf_decRepr n

theorem toString_nat_injective : Function.Injective (fun n : Nat => toString n) := by
  intro m n h
  have hm := idNum_toString m
  rw [show toString m = toString n from h, idNum_toString n] at hm
  exact hm.symm

/-! ### Pending-request table lemmas -/

theorem lookupReq_setReq_self (l : List (String × Nat)) (k : String) (v : Nat) :
    lookupReq (setReq l k v) k = some v := by
  induction l with
  | nil => simp [setReq, lookupReq]
  | cons a t ih =>
    by_cases hak : a.1 = k
    · simp [setReq, hak, lookupReq]
    · simpa [setReq, hak, lookupReq] using ih

theorem lookupReq_setReq_other (l : List (String × Nat)) (k k2 : String)
    (v : Nat) (h : k2 ≠ k) : lookupReq (setReq l k v) k2 = lookupReq l k2 := by
  induction l with
  | nil => simp [setReq, lookupReq, Ne.symm h]
  | cons a t ih =>
    by_cases hak : a.1 = k
    · subst hak
      simp [setReq, lookupReq, Ne.symm h]
    · by_cases hak2 : a.1 = k2
      · simp [setReq, hak, lookupReq, hak2, h]
      · simpa [setReq, hak, lookupReq, hak2] using ih

theorem lookupReq_eq_none_iff (l : List (String × Nat)) (k : String) :
    lookupReq l k = none ↔ k ∉ reqKeys l := by
  induction l with
  | nil => simp [lookupReq, reqKeys]
  | cons a t ih =>
    by_cases hak : a.1 = k
    · simp [lookupReq, hak, reqKeys]
    · simp [lookupReq, hak, reqKeys, ih, Ne.symm hak]

theorem reqKeys_setReq_fresh (l : List (String × Nat)) (k : String) (v : Nat)
    (h : k ∉ reqKeys l) : reqKeys (setReq l k v) = reqKeys l ++ [k] := by
  induction l with
  | nil => simp [setReq, reqKeys]
  | cons a t ih =>
    simp only [reqKeys, List.map_cons, List.mem_cons, not_or] at h
    have hak : a.1 ≠ k := Ne.symm h.1
    have ht := ih h.2
    simp only [setReq, hak, if_neg, ite_false, reqKeys, List.map_cons]
    simp only [reqKeys] at ht
    simp [ht]

theorem lookupReq_eraseKey_self (l : List (String × Nat)) (k : String) :
    lookupReq (eraseKey l k) k = none := by
  induction l with
  | nil => simp [eraseKey, lookupReq]
  | cons a t ih =>
    by_cases hak : a.1 = k
    · simpa [eraseKey, hak] using ih
    · simpa [eraseKey, hak, lookupReq] using ih

theorem lookupReq_eraseKey_other (l : List (String × Nat)) (k k2 : String)
    (h : k2 ≠ k) : lookupReq (eraseKey l k) k2 = lookupReq l k2 := by
  induction l with
  | nil => simp [eraseKey, lookupReq]
  | cons a t ih =>
    by_cases hak : a.1 = k
    · have ha2 : a.1 ≠ k2 := by rw [hak]; exact Ne.symm h
      simpa [eraseKey, List.filter_cons, hak, lookupReq, ha2, Ne.symm h]
        using ih
    · by_cases hak2 : a.1 = k2
      · simp [eraseKey, List.filter_cons, hak, lookupReq, hak2, h]
      · simpa [eraseKey, List.filter_cons, hak, lookupReq, hak2] using ih

/-! ### Sequential `execute` runs -/

/-- One `execute` step against a non-throwing transport, fully evaluated. -/
theorem execute_ok (st : XAPIState) (m : String) (p : Option JSValue) :
    execute st okBackend m p
      = ({ requestId := st.requestId + 1,
           requests := setReq st.requests (toString st.requestId) st.nextTok,
           nextTok := st.nextTok + 1 },
         ExecOutcome.pending st.nextTok
           { id := toString st.requestId, method := m, params := p }) := rfl

/-- Every key in the pending table names a number below the counter. -/
def GoodKeys (st : XAPIState) : Prop :=
  ∀ s ∈ reqKeys st.requests, ∃ m, m < st.requestId ∧ s = toString m

theorem goodKeys_fresh (st : XAPIState) (h : GoodKeys st) :
    toString st.requestId ∉ reqKeys st.requests := by
  intro hmem
  obtain ⟨m, hm, hs⟩ := h _ hmem
  have := toString_nat_injective hs
  omega

theorem issuedIds_cons (st : XAPIState) (c : String × Option JSValue)
    (rest : List (String × Option JSValue)) :
    issuedIds st (c :: rest)
      = toString st.requestId
          :: issuedIds (execute st okBackend c.1 c.2).1 rest := rfl

theorem issuedIds_eq (calls : List (String × Option JSValue)) :
    ∀ st : XAPIState,
      issuedIds st calls
        = (List.range calls.length).map (fun k => toString (st.requestId + k)) := by
  induction calls with
  | nil => intro st; simp [issuedIds, execSeq]
  | cons c rest ih =>
    intro st
    rw [issuedIds_cons, ih, execute_ok]
    rw [List.length_cons, List.range_succ_eq_map, List.map_cons, List.map_map]
    have hf : ((fun k => toString (st.requestId + k)) ∘ Nat.succ)
        = fun k => toString (st.requestId + 1 + k) := by
      funext k
      show toString (st.requestId + (k + 1)) = toString (st.requestId + 1 + k)
      congr 1
      omega
    rw [hf]
    simp

theorem execSeq_keys (calls : List (String × Option JSValue)) :
    ∀ st : XAPIState, GoodKeys st →
      reqKeys (execSeq okBackend st calls).1.requests
          = reqKeys st.requests ++ issuedIds st calls
        ∧ GoodKeys (execSeq okBackend st calls).1 := by
  induction calls with
  | nil =>
    intro st h
    refine ⟨?_, h⟩
    simp [execSeq, issuedIds]
  | cons c rest ih =>
    intro st h
    have hfresh := goodKeys_fresh st h
    have hkeys :
        reqKeys (execute st okBackend c.1 c.2).1.requests
          = reqKeys st.requests ++ [toString st.requestId] := by
      rw [execute_ok]
      exact reqKeys_setReq_fresh _ _ _ hfresh
    have hgood : GoodKeys (execute st okBackend c.1 c.2).1 := by
      intro s hs
      rw [hkeys] at hs
      rcases List.mem_append.mp hs with hold | hnew
      · obtain ⟨m, hm, hsm⟩ := h _ hold
        exact ⟨m, by simp [execute_ok]; omega, hsm⟩
      · refine ⟨st.requestId, by simp [execute_ok], ?_⟩
        simpa using hnew
    obtain ⟨hk, hg⟩ := ih (execute st okBackend c.1 c.2).1 hgood
    constructor
    · show reqKeys (execSeq okBackend (execute st okBackend c.1 c.2).1 rest).1.requests = _
      rw [hk, hkeys, issuedIds_cons, List.append_assoc]
      rfl
    · exact hg

/-! ### Branch behaviour of `handleResponse` -/

theorem handleResponse_result (st : XAPIState) (resp : Response) (i : String)
    (tok : Nat) (r : JSValue)
    (hm : resp.method ≠ some "xFeedback/Event") (hid : resp.id = some i)
    (hlook : lookupReq st.requests i = some tok)
    (hr : resp.result = some r) :
    handleResponse st resp
      = ({ st with requests := eraseKey st.requests i },
         HandleResult.resolved tok r) := by
  rw [handleResponse]
  simp [hm, hid, hlook, hr]

theorem handleResponse_noResult (st : XAPIState) (resp : Response) (i : String)
    (tok : Nat)
    (hm : resp.method ≠ some "xFeedback/Event") (hid : resp.id = some i)
    (hlook : lookupReq st.requests i = some tok)
    (hr : resp.result = none) :
    handleResponse st resp
      = ({ st with requests := eraseKey st.requests i },
         HandleResult.rejected tok (resp.error.getD JSValue.undef)) := by
  rw [handleResponse]
  simp [hm, hid, hlook, hr]

theorem handleResponse_feedbackBranch (st : XAPIState) (resp : Response)
    (hm : resp.method = some "xFeedback/Event") :
    handleResponse st resp = (st, HandleResult.feedback resp.params) := by
  rw [handleResponse]
  simp [hm]

theorem handleResponse_notFeedback (st : XAPIState) (resp : Response)
    (hm : resp.method ≠ some "xFeedback/Event") :
    (handleResponse st resp).2.isFeedback = false := by
  rw [handleResponse]
  rcases hi : resp.id with _ | i
  · simp [hm, hi, HandleResult.isFeedback]
  · rcases hl : lookupReq st.requests i with _ | tok
    · simp [hm, hi, hl, HandleResult.isFeedback]
    · rcases hr : resp.result with _ | v
      · simp [hm, hi, hl, hr, HandleResult.isFeedback]
      · simp [hm, hi, hl, hr, HandleResult.isFeedback]

/-! ### The claims -/

/-- C2 (counterexample): the claim says an inbound non-feedback envelope with
an unknown id must not throw; but on a fresh session (no pending requests) a
response envelope with id `"7"` and a result field makes `handleResponse`
throw — `const { resolve } = this.requests[id]` destructures `undefined`. -/
theorem unknownId_throws_counterexample :
    (handleResponse initXAPI
        { id := some "7", method := none, result := some (JSValue.num 1),
          error := none, params := none }).2
      = HandleResult.thrown := rfl

/-- C2 (amended): for every inbound non-feedback envelope whose id has no
matching PendingRequest, `handleResponse` throws a `TypeError`; no pending
future is settled and the pending-request map is left unchanged, but the
response is not silently dropped — the exception propagates. -/
theorem handleResponse_unknownId (st : XAPIState) (resp : Response)
    (hm : resp.method ≠ some "xFeedback/Event")
    (hnone : ∀ i, resp.id = some i → lookupReq st.requests i = none) :
    handleResponse st resp = (st, HandleResult.thrown) := by
  rw [handleResponse]
  rcases hi : resp.id with _ | i
  · simp [hm, hi]
  · simp [hm, hi, hnone i hi]

/-- C2 (witness): a fresh session with an unknown-id envelope throws and the
state is unchanged. -/
theorem handleResponse_unknownId_witness :
    handleResponse initXAPI
        { id := some "7", method := none, result := none,
          error := none, params := none }
      = (initXAPI, HandleResult.thrown) :=
  handleResponse_unknownId initXAPI _ (by simp) (fun _ _ => rfl)

/-- C5: the routing decision of `handleResponse` is single and exhaustive —
an envelope reaches the feedback dispatcher (with its params) exactly when
its method is `"xFeedback/Event"`; every other envelope goes to the request
correlator, never to the dispatcher. -/
theorem handleResponse_routing (st : XAPIState) (resp : Response) :
    ((handleResponse st resp).2.isFeedback = true
        ↔ resp.method = some "xFeedback/Event")
    ∧ (resp.method = some "xFeedback/Event" →
        handleResponse st resp = (st, HandleResult.feedback resp.params)) := by
  constructor
  · constructor
    · intro hf
      by_contra hm
      rw [handleResponse_notFeedback st resp hm] at hf
      exact Bool.false_ne_true hf
    · intro hm
      rw [handleResponse_feedbackBranch st resp hm]
      rfl
  · exact handleResponse_feedbackBranch st resp

/-- C5 (witness): a feedback envelope is dispatched with its params, and a
plain response envelope is not routed to the dispatcher. -/
theorem handleResponse_routing_witness :
    handleResponse initXAPI
        { id := none, method := some "xFeedback/Event", result := none,
          error := none, params := some (JSValue.obj []) }
      = (initXAPI, HandleResult.feedback (some (JSValue.obj [])))
    ∧ ((handleResponse initXAPI
        { id := some "7", method := none, result := none,
          error := none, params := none }).2.isFeedback = false) := by
  constructor
  · exact (handleResponse_routing initXAPI _).2 rfl
  · have h := (handleResponse_routing initXAPI
      { id := some "7", method := none, result := none,
        error := none, params := none }).1
    rw [show (none : Option String) = some "xFeedback/Event" ↔ False from by simp]
      at h
    simpa using h

/-- C9: an inbound non-feedback envelope whose id matches a pending request
but which carries neither a `result` nor an `error` field takes the error
branch: the pending future is rejected with the (absent, hence `undefined`)
error value and the entry is removed. -/
theorem handleResponse_missingFields (st : XAPIState) (resp : Response)
    (i : String) (tok : Nat)
    (hm : resp.method ≠ some "xFeedback/Event") (hid : resp.id = some i)
    (hlook : lookupReq st.requests i = some tok)
    (hres : resp.result = none) (herr : resp.error = none) :
    handleResponse st resp
      = ({ st with requests := eraseKey st.requests i },
         HandleResult.rejected tok JSValue.undef) := by
  have h := handleResponse_noResult st resp i tok hm hid hlook hres
  rw [herr] at h
  exact h

/-- C9 (witness): with one pending request under id `"1"`, an envelope
carrying only that id rejects the pending promise with `undefined` and
removes the entry. -/
theorem handleResponse_missingFields_witness :
    handleResponse { requestId := 2, requests := [("1", 0)], nextTok := 1 }
        { id := some "1", method := none, result := none,
          error := none, params := none }
      = ({ requestId := 2, requests := [], nextTok := 1 },
         HandleResult.rejected 0 JSValue.undef) := by
  have h := handleResponse_missingFields
    { requestId := 2, requests := [("1", 0)], nextTok := 1 }
    { id := some "1", method := none, result := none,
      error := none, params := none }
    "1" 0 (by simp) rfl rfl rfl rfl
  simpa [eraseKey] using h

/-- Inversion of a successful `execute`: the returned state holds the new
pending entry for the promise token under the envelope's id, and the id is
the string form of the old counter. -/
theorem execute_pending_inv (st : XAPIState) (b : Backend) (m : String)
    (p : Option JSValue) (st1 : XAPIState) (tok : Nat) (req : Request)
    (hex : execute st b m p = (st1, ExecOutcome.pending tok req)) :
    req.id = toString st.requestId
      ∧ st1.requests = setReq st.requests req.id tok
      ∧ lookupReq st1.requests req.id = some tok := by
  rcases hbe : b (createRequest (toString st.requestId) m p) with e | u
  · rw [execute] at hex
    simp only [nextRequestId, createRequest] at hex hbe
    rw [hbe] at hex
    simp at hex
  · rw [execute] at hex
    simp only [nextRequestId, createRequest] at hex hbe
    rw [hbe] at hex
    simp only [Prod.mk.injEq, ExecOutcome.pending.injEq] at hex
    obtain ⟨hst1, htok, hreq⟩ := hex
    subst htok
    rw [← hreq, ← hst1]
    exact ⟨rfl, rfl, lookupReq_setReq_self _ _ _⟩

/-- C1: for a pending request created by `execute`, an inbound non-feedback
envelope carrying the same id and a `result` field resolves exactly the
promise returned by that `execute` call with that result value; an envelope
instead carrying an `error` field rejects that same promise with that exact
error value; in both cases the entry is removed (so it is destroyed exactly
once) and every other pending entry is left untouched. -/
theorem execute_correlation (st : XAPIState) (b : Backend) (m : String)
    (p : Option JSValue) (st1 : XAPIState) (tok : Nat) (req : Request)
    (hex : execute st b m p = (st1, ExecOutcome.pending tok req))
    (resp : Response)
    (hm : resp.method ≠ some "xFeedback/Event")
    (hid : resp.id = some req.id) :
    (∀ r, resp.result = some r →
      handleResponse st1 resp
        = ({ st1 with requests := eraseKey st1.requests req.id },
           HandleResult.resolved tok r))
    ∧ (∀ e, resp.result = none → resp.error = some e →
      handleResponse st1 resp
        = ({ st1 with requests := eraseKey st1.requests req.id },
           HandleResult.rejected tok e))
    ∧ lookupReq (eraseKey st1.requests req.id) req.id = none
    ∧ (∀ j, j ≠ req.id →
        lookupReq (eraseKey st1.requests req.id) j = lookupReq st1.requests j) := by
  obtain ⟨-, -, hlook⟩ := execute_pending_inv st b m p st1 tok req hex
  refine ⟨?_, ?_, ?_, ?_⟩
  · intro r hr
    exact handleResponse_result st1 resp req.id tok r hm hid hlook hr
  · intro e hres herr
    have h := handleResponse_noResult st1 resp req.id tok hm hid hlook hres
    rw [herr] at h
    exact h
  · exact lookupReq_eraseKey_self _ _
  · intro j hj
    exact lookupReq_eraseKey_other _ _ _ hj

/-- C1 (witness): on a fresh session, `execute` issues id `"1"` for promise
token 0; a response with id `"1"` and result 42 resolves that promise and
empties the table. -/
theorem execute_correlation_witness :
    handleResponse (execute initXAPI okBackend "xGet" none).1
        { id := some "1", method := none, result := some (JSValue.num 42),
          error := none, params := none }
      = ({ requestId := 2, requests := [], nextTok := 1 },
         HandleResult.resolved 0 (JSValue.num 42)) := by
  have h := execute_correlation initXAPI okBackend "xGet" none
      { requestId := 2, requests := [("1", 0)], nextTok := 1 } 0
      { id := "1", method := "xGet", params := none } rfl
      { id := some "1", method := none, result := some (JSValue.num 42),
        error := none, params := none }
      (by simp) rfl
  have h1 := h.1 (JSValue.num 42) rfl
  simpa [eraseKey] using h1

/-- C3: for every sequence of N `execute` calls on one session with no
responses in between, the N issued ids are the decimal strings of
1, 2, ..., N — pairwise distinct and strictly increasing (as the numbers
they name) in issuance order; the first id of a fresh session is `"1"`;
and the ids of the concurrently pending requests left in the table are
pairwise distinct. -/
theorem requestId_uniqueness (calls : List (String × Option JSValue)) :
    issuedIds initXAPI calls
        = (List.range calls.length).map (fun k => toString (1 + k))
    ∧ (issuedIds initXAPI calls).Nodup
    ∧ (issuedIds initXAPI calls).Pairwise (fun a b => idNum a < idNum b)
    ∧ (calls ≠ [] → (issuedIds initXAPI calls).head? = some "1")
    ∧ (reqKeys (execSeq okBackend initXAPI calls).1.requests).Nodup := by
  have h1 : issuedIds initXAPI calls
      = (List.range calls.length).map (fun k => toString (1 + k)) := by
    simpa [initXAPI] using issuedIds_eq calls initXAPI
  have hinj : Function.Injective (fun k : Nat => toString (1 + k)) := by
    intro a b h
    have := toString_nat_injective h
    omega
  have hnodup : (issuedIds initXAPI calls).Nodup := by
    rw [h1]
    exact (List.nodup_range _).map hinj
  refine ⟨h1, hnodup, ?_, ?_, ?_⟩
  · rw [h1, List.pairwise_map]
    refine (List.pairwise_lt_range _).imp ?_
    intro a b hab
    rw [idNum_toString, idNum_toString]
    omega
  · intro hne
    rcases calls with _ | ⟨c, rest⟩
    · exact absurd rfl hne
    · rw [issuedIds_cons]
      rfl
  · obtain ⟨hk, -⟩ := execSeq_keys calls initXAPI (by
      intro s hs
      simp [initXAPI, reqKeys] at hs)
    rw [hk]
    simpa [initXAPI, reqKeys] using hnodup

/-- C3 (witness): two sequential calls on a fresh session issue ids `"1"`
and `"2"`. -/
theorem requestId_uniqueness_witness :
    issuedIds initXAPI [("xGet", none), ("xSet", none)] = ["1", "2"]
    ∧ (issuedIds initXAPI [("xGet", none), ("xSet", none)]).head? = some "1" := by
  have h := requestId_uniqueness [("xGet", none), ("xSet", none)]
  refine ⟨?_, h.2.2.2.1 (by simp)⟩
  rw [h.1]
  rfl

/-- C4: `command(path, params, body)` builds the method name `"xCommand/"`
followed by the slash-joined normalized path and passes params to `execute`
unmodified when body is absent, and the merged object `{ body, ...params }`
when body is supplied; on a fresh session `command("Presentation Start")`
produces envelope `{ id: "1", method: "xCommand/Presentation/Start" }` and a
subsequent `command("UserInterface Extensions Set", { ConfigId: "x" },
"<Extensions/>")` produces `{ id: "2",
method: "xCommand/UserInterface/Extensions/Set",
params: { body: "<Extensions/>", ConfigId: "x" } }`. -/
theorem command_spec :
    (∀ (st : XAPIState) (b : Backend) (path : Path)
        (params : Option (List (String × JSValue))) (body : Option String),
      command st b path params body
        = execute st b ("xCommand/" ++ joinSlash (JSXAPI.normalizePath path))
            (mkCommandParams params body))
    ∧ (∀ params : Option (List (String × JSValue)),
        mkCommandParams params none = params.map JSValue.obj)
    ∧ (∀ (params : Option (List (String × JSValue))) (b : String),
        mkCommandParams params (some b)
          = some (JSValue.obj
              (objAssign [("body", JSValue.str b)] (params.getD []))))
    ∧ (command initXAPI okBackend (Path.str "Presentation Start") none none).2
        = ExecOutcome.pending 0
            { id := "1", method := "xCommand/Presentation/Start",
              params := none }
    ∧ (command
          (command initXAPI okBackend (Path.str "Presentation Start")
            none none).1
          okBackend (Path.str "UserInterface Extensions Set")
          (some [("ConfigId", JSValue.str "x")]) (some "<Extensions/>")).2
        = ExecOutcome.pending 1
            { id := "2", method := "xCommand/UserInterface/Extensions/Set",
              params := some (JSValue.obj
                [("body", JSValue.str "<Extensions/>"),
                 ("ConfigId", JSValue.str "x")]) } :=
  ⟨fun _ _ _ _ _ => rfl, fun _ => rfl, fun _ _ => rfl, rfl, rfl⟩

/-- C6: the component-level path normalization returns `normalize(p)`
unchanged when the component prefix is empty, and the structural
concatenation `[prefix, ...normalize(p)]` when it is non-empty; e.g. the
Configuration section maps `"Audio DefaultVolume"` to
`["Configuration", "Audio", "DefaultVolume"]`. -/
theorem component_normalizePath_spec :
    (∀ (pfx : String) (p : Path),
      Component.normalizePath pfx p
        = if pfx = "" then JSXAPI.normalizePath p
          else pfx :: JSXAPI.normalizePath p)
    ∧ Component.normalizePath "Configuration" (Path.str "Audio DefaultVolume")
        = ["Configuration", "Audio", "DefaultVolume"]
    ∧ Component.normalizePath "" (Path.str "Audio DefaultVolume")
        = ["Audio", "DefaultVolume"] :=
  ⟨fun _ _ => rfl, rfl, rfl⟩

/-- C7: `get(p)` calls `execute` with method `"xGet"` and params
`{ Path: normalize(p) }`, and `set(p, v)` calls `execute` with method
`"xSet"` and params `{ Path: normalize(p), Value: v }`, where the
normalization includes the owning section's prefix. -/
theorem get_set_spec :
    (∀ (st : XAPIState) (b : Backend) (pfx : String) (p : Path),
      GettableImpl.get st b pfx p
        = execute st b "xGet"
            (some (JSValue.obj
              [("Path", jsPath (Component.normalizePath pfx p))])))
    ∧ (∀ (st : XAPIState) (b : Backend) (pfx : String) (p : Path)
          (v : JSValue),
        SettableImpl.set st b pfx p v
          = execute st b "xSet"
              (some (JSValue.obj
                [("Path", jsPath (Component.normalizePath pfx p)),
                 ("Value", v)])))
    ∧ (GettableImpl.get initXAPI okBackend "Status" (Path.str "Audio Volume")).2
        = ExecOutcome.pending 0
            { id := "1", method := "xGet",
              params := some (JSValue.obj
                [("Path", JSValue.arr
                  [JSValue.str "Status", JSValue.str "Audio",
                   JSValue.str "Volume"])]) } :=
  ⟨fun _ _ _ _ => rfl, fun _ _ _ _ _ => rfl, rfl⟩

/-- C8: the facade surfaces the transport's `ready`, `close` and `error`
signals unchanged to its own observers — each transport emission causes
exactly one corresponding facade emission, with the error payload passed
through unmodified. -/
theorem lifecycle_passthrough :
    lifecycleEmissions BackendEvent.ready = [FacadeEmission.ready]
    ∧ lifecycleEmissions BackendEvent.close = [FacadeEmission.close]
    ∧ ∀ e, lifecycleEmissions (BackendEvent.error e) = [FacadeEmission.error e] :=
  ⟨rfl, rfl, fun _ => rfl⟩

/-- C10: the pending entry is registered only after the envelope is handed to
the transport — if the transport's `execute` throws synchronously, the
promise returned by `execute` rejects with the thrown value, no entry is
stored (the table is exactly what it was), and the request-id counter has
nevertheless been incremented. -/
theorem execute_transport_throw (st : XAPIState) (b : Backend) (m : String)
    (p : Option JSValue) (e : JSValue)
    (hb : b (createRequest (toString st.requestId) m p) = Except.error e) :
    execute st b m p
      = ({ requestId := st.requestId + 1, requests := st.requests,
           nextTok := st.nextTok + 1 },
         ExecOutcome.rejectedSync st.nextTok e) := by
  rw [execute]
  simp only [nextRequestId, createRequest] at hb ⊢
  rw [hb]

/-- C10 (witness): a transport that always throws `"boom"` makes `execute` on
a fresh session reject synchronously, store nothing, and still bump the
counter to 2. -/
theorem execute_transport_throw_witness :
    execute initXAPI (fun _ => Except.error (JSValue.str "boom")) "xGet" none
      = ({ requestId := 2, requests := [], nextTok := 1 },
         ExecOutcome.rejectedSync 0 (JSValue.str "boom")) :=
  execute_transport_throw initXAPI (fun _ => Except.error (JSValue.str "boom"))
    "xGet" none (JSValue.str "boom") rfl

end JSXAPI
